import Mathlib

/-!
Shallow embedding of the MovieMood pricing engine and portfolio ledger
(src/services/priceService.ts and src/services/portfolioService.ts),
together with proofs settling the frozen claims about them.

Modelling conventions: JavaScript numbers are rationals; wall-clock
readings (hour of day, day of week, calendar month, days since a release
date) and the uniform random sample are threaded explicitly through a
PriceEnv record; the asynchronous fetchMovieDetails call, which may
reject, is an Option-valued function; ISO timestamps and generated
transaction identifiers are opaque strings passed in as parameters.
-/

namespace MovieMood

/-- Constants from priceService.ts. -/
def BASE_PRICE : ℚ := 50

/-- Minimum price constant from priceService.ts. -/
def MIN_PRICE : ℚ := 5

/-- Maximum price constant from priceService.ts. -/
def MAX_PRICE : ℚ := 500

/-- Volatility constant from priceService.ts. -/
def VOLATILITY_FACTOR : ℚ := 0.1

/-- Starting cash constant from portfolioService.ts. -/
def INITIAL_CASH : ℚ := 100000

/-- Movie record: the fields of the Movie shape that the pricing code reads. -/
structure Movie where
  id : ℕ
  title : String
  release_date : String
  vote_average : ℚ
  popularity : ℚ
  genre_ids : List ℕ
  vote_count : ℚ
deriving DecidableEq

/-- MovieDetails: the fields of the fetchMovieDetails response that the
pricing code reads; absent fields are none. -/
structure MovieDetails where
  title : Option String := none
  release_date : Option String := none
  vote_average : Option ℚ := none
  popularity : Option ℚ := none
  vote_count : Option ℚ := none
  genres : Option (List ℕ) := none
  budget : Option ℚ := none
  revenue : Option ℚ := none

/-- Environment record threading the implicit globals of the source
(Math.random, Date.now, new Date().getHours() and friends) as data.
daysSince maps a release-date string to the elapsed days, standing for
(Date.now() - new Date(releaseDate).getTime()) / 86400000. -/
structure PriceEnv where
  rand : ℚ
  hour : ℕ
  dayOfWeek : ℕ
  month : Fin 12
  daysSince : String → ℚ
  now : String

/-- MoviePriceData record from priceService.ts. -/
structure MoviePriceData where
  movieId : ℕ
  basePrice : ℚ
  currentPrice : ℚ
  priceChange : ℚ
  priceChangePercent : ℚ
  volume : ℚ
  marketCap : ℚ
  volatility : ℚ
  lastUpdated : String
deriving DecidableEq

/-- PriceFactors record from priceService.ts. -/
structure PriceFactors where
  popularity : ℚ
  rating : ℚ
  releaseDate : String
  budget : ℚ
  revenue : ℚ
  voteCount : ℚ
  genreMultiplier : ℚ
  seasonalMultiplier : ℚ
  trendMultiplier : ℚ
deriving DecidableEq

/-- Genre multiplier lookup table GENRE_MULTIPLIERS, with the same
default (1.0) the source applies to unmapped genres. -/
def GENRE_MULTIPLIERS (genreId : ℕ) : ℚ :=
  match genreId with
  | 28 => 1.2
  | 12 => 1.1
  | 16 => 0.9
  | 35 => 1
  | 80 => 0.8
  | 99 => 0.7
  | 18 => 1
  | 10751 => 0.9
  | 14 => 1.1
  | 36 => 0.8
  | 27 => 1.3
  | 10402 => 0.9
  | 9648 => 1.1
  | 10749 => 1
  | 878 => 1.2
  | 10770 => 0.8
  | 53 => 1.1
  | 10752 => 0.9
  | 37 => 0.8
  | _ => 1

/-- Seasonal twelve-month pattern per genre from calculateSeasonalMultiplier. -/
def seasonalPattern (genreId : ℕ) : List ℚ :=
  match genreId with
  | 27 => [1.2, 1.1, 1.3, 1.4, 1.1, 1.0, 0.9, 0.8, 0.9, 1.1, 1.3, 1.2]
  | 10749 => [1.1, 1.2, 1.0, 0.9, 0.8, 0.9, 1.0, 1.1, 1.0, 0.9, 0.8, 1.1]
  | 28 => [1.0, 0.9, 1.0, 1.1, 1.2, 1.3, 1.2, 1.1, 1.0, 0.9, 0.8, 0.9]
  | 35 => [1.0, 1.0, 1.0, 1.0, 1.0, 1.0, 1.0, 1.0, 1.0, 1.0, 1.0, 1.0]
  | _ => List.replicate 12 1

/-- calculateSeasonalMultiplier from priceService.ts; the current month is
read from the clock in the source and is a parameter here. -/
def calculateSeasonalMultiplier (genreId : ℕ) (month : Fin 12) : ℚ :=
  (seasonalPattern genreId).getD month.val 1

/-- calculateRecencyFactor from priceService.ts. -/
def calculateRecencyFactor (daysSinceRelease : ℚ) : ℚ :=
  if daysSinceRelease < 30 then 0.2
  else if daysSinceRelease < 90 then 0.1
  else if daysSinceRelease < 365 then 0.05
  else 0

/-- calculateTrendMultiplier from priceService.ts; daysSinceRelease stands
for the elapsed time the source derives from Date.now(). -/
def calculateTrendMultiplier (movie : Movie) (daysSinceRelease : ℚ) : ℚ :=
  let popularityFactor := min 1 (movie.popularity / 1000)
  let ratingFactor := movie.vote_average / 10
  let recencyFactor := calculateRecencyFactor daysSinceRelease
  let trendFactor := 0.8 + popularityFactor * 0.2 + ratingFactor * 0.1 + recencyFactor * 0.1
  max 0.8 (min 1.2 trendFactor)

/-- Primary genre selection from calculatePriceFactors: movie.genre_ids[0] || 18,
where a missing first element (and the falsy id 0) defaults to 18 (Drama). -/
def primaryGenre (genreIds : List ℕ) : ℕ :=
  match genreIds.head? with
  | some g => if g = 0 then 18 else g
  | none => 18

/-- calculatePriceFactors from priceService.ts. The local recencyFactor the
source computes on its lines 177-178 is never used and is omitted. -/
def calculatePriceFactors (env : PriceEnv) (movie : Movie)
    (movieDetails : MovieDetails) : PriceFactors :=
  let popularity := min 1 (movie.popularity / 1000)
  let rating := movie.vote_average / 10
  let budget := movieDetails.budget.getD 0
  let budgetFactor := min 1 (budget / 200000000)
  let revenue := movieDetails.revenue.getD 0
  let revenueFactor := min 1 (revenue / 1000000000)
  let voteCountFactor := min 1 (movie.vote_count / 10000)
  let genre := primaryGenre movie.genre_ids
  { popularity := popularity
    rating := rating
    releaseDate := movie.release_date
    budget := budgetFactor
    revenue := revenueFactor
    voteCount := voteCountFactor
    genreMultiplier := GENRE_MULTIPLIERS genre
    seasonalMultiplier := calculateSeasonalMultiplier genre env.month
    trendMultiplier := calculateTrendMultiplier movie (env.daysSince movie.release_date) }

/-- calculateBasePrice from priceService.ts. -/
def calculateBasePrice (factors : PriceFactors) : ℚ :=
  let price := BASE_PRICE *
    (factors.popularity * 0.2 +
     factors.rating * 0.2 +
     factors.budget * 0.15 +
     factors.revenue * 0.15 +
     factors.voteCount * 0.1 +
     factors.genreMultiplier * 0.1 +
     factors.seasonalMultiplier * 0.05 +
     factors.trendMultiplier * 0.05)
  max MIN_PRICE (min MAX_PRICE price)

/-- calculateVolatility from priceService.ts. -/
def calculateVolatility (factors : PriceFactors) : ℚ :=
  VOLATILITY_FACTOR + factors.popularity * 0.1 + (1 - factors.rating) * 0.05

/-- calculateMarketVolatility from priceService.ts; the sentiment additions
the source accumulates with += are written as a sum of conditionals. -/
def calculateMarketVolatility (env : PriceEnv) (factors : PriceFactors)
    (baseVolatility : ℚ) : ℚ :=
  let sentimentFactor :=
    (if factors.rating > 0.7 then (0.02 : ℚ) else 0) +
    (if factors.popularity > 0.5 then (0.01 : ℚ) else 0) +
    (if env.dayOfWeek = 0 ∨ env.dayOfWeek = 6 then (0.01 : ℚ) else 0) +
    (if 18 ≤ env.hour ∧ env.hour ≤ 23 then (0.005 : ℚ) else 0)
  let randomFactor := (env.rand - 0.5) * baseVolatility
  max (-0.05) (min 0.05 (sentimentFactor + randomFactor))

/-- Math.round on a rational, as floor(x + 1/2). -/
def mathRound (x : ℚ) : ℚ := ((⌊x + 1/2⌋ : ℤ) : ℚ)

/-- calculateVolume from priceService.ts. -/
def calculateVolume (factors : PriceFactors) : ℚ :=
  mathRound (1000 + factors.popularity * 5000 + factors.rating * 2000)

/-- Fallback MoviePriceData both catch blocks of priceService.ts return. -/
def fallbackPrice (movieId : ℕ) (now : String) : MoviePriceData :=
  { movieId := movieId
    basePrice := BASE_PRICE
    currentPrice := BASE_PRICE
    priceChange := 0
    priceChangePercent := 0
    volume := 1000
    marketCap := BASE_PRICE * 1000 * 1000
    volatility := 0.1
    lastUpdated := now }

/-- calculateMoviePrice from priceService.ts. A rejecting fetchMovieDetails
call is a none result, which the catch block turns into the fallback. -/
def calculateMoviePrice (env : PriceEnv) (fetch : ℕ → Option MovieDetails)
    (movie : Movie) : MoviePriceData :=
  match fetch movie.id with
  | none => fallbackPrice movie.id env.now
  | some movieDetails =>
    let factors := calculatePriceFactors env movie movieDetails
    let basePrice := calculateBasePrice factors
    let volatility := calculateVolatility factors
    let marketVolatility := calculateMarketVolatility env factors volatility
    let currentPrice := max MIN_PRICE (min MAX_PRICE (basePrice * (1 + marketVolatility)))
    let priceChange := currentPrice - basePrice
    let volume := calculateVolume factors
    { movieId := movie.id
      basePrice := basePrice
      currentPrice := currentPrice
      priceChange := priceChange
      priceChangePercent := priceChange / basePrice * 100
      volume := volume
      marketCap := currentPrice * volume * 1000
      volatility := volatility
      lastUpdated := env.now }

/-- Minimal Movie object calculateMoviePriceById builds from the fetched
details, with the same fallback defaults the source applies. -/
def movieFromDetails (movieId : ℕ) (d : MovieDetails) : Movie :=
  { id := movieId
    title := d.title.getD "Unknown"
    release_date := d.release_date.getD "2024-01-01"
    vote_average := d.vote_average.getD 0
    popularity := d.popularity.getD 0
    genre_ids := d.genres.getD []
    vote_count := d.vote_count.getD 0 }

/-- calculateMoviePriceById from priceService.ts: a failed fetch lands in
the catch block, which returns the fallback price data. -/
def calculateMoviePriceById (env : PriceEnv) (fetch : ℕ → Option MovieDetails)
    (movieId : ℕ) : MoviePriceData :=
  match fetch movieId with
  | none => fallbackPrice movieId env.now
  | some d => calculateMoviePrice env fetch (movieFromDetails movieId d)

/-- simulatePriceUpdate from priceService.ts. The source initializes
marketActivity to 1.0, overwrites it with 1.2 during business hours and
then with 1.1 on weekends, so the weekend branch wins when both apply. -/
def simulatePriceUpdate (env : PriceEnv) (priceData : MoviePriceData) : MoviePriceData :=
  let volatility := priceData.volatility
  let marketActivity : ℚ :=
    if env.dayOfWeek = 0 ∨ env.dayOfWeek = 6 then 1.1
    else if 9 ≤ env.hour ∧ env.hour ≤ 17 then 1.2
    else 1
  let baseVolatility := volatility * marketActivity
  let priceChange := (env.rand - 0.5) * baseVolatility * priceData.currentPrice
  let newPrice := max MIN_PRICE (min MAX_PRICE (priceData.currentPrice + priceChange))
  { priceData with
    currentPrice := newPrice
    priceChange := priceChange
    priceChangePercent := priceChange / priceData.currentPrice * 100
    lastUpdated := env.now }

/-- Iterated simulatePriceUpdate steps, each with its own random value and
clock reading. -/
def simulateSteps (envs : ℕ → PriceEnv) : ℕ → MoviePriceData → MoviePriceData
  | 0, priceData => priceData
  | n + 1, priceData => simulatePriceUpdate (envs n) (simulateSteps envs n priceData)

/-- Holding record from portfolioService.ts. -/
structure Holding where
  movieId : ℕ
  movieTitle : String
  posterPath : String
  shares : ℚ
  averagePrice : ℚ
  currentPrice : ℚ
  totalValue : ℚ
  profitLoss : ℚ
  profitLossPercent : ℚ
deriving DecidableEq

/-- Transaction type tag from portfolioService.ts. -/
inductive TxType where
  | buy
  | sell
deriving DecidableEq

/-- Transaction record from portfolioService.ts. -/
structure Transaction where
  id : String
  movieId : ℕ
  movieTitle : String
  type : TxType
  shares : ℚ
  price : ℚ
  totalAmount : ℚ
  timestamp : String
deriving DecidableEq

/-- Portfolio record from portfolioService.ts. -/
structure Portfolio where
  cash : ℚ
  totalValue : ℚ
  totalInvested : ℚ
  totalProfitLoss : ℚ
  totalProfitLossPercent : ℚ
  holdings : List Holding
  transactions : List Transaction
  createdAt : String
  lastUpdated : String
deriving DecidableEq

/-- Result messages of buyStock and sellStock, abstracting the template
strings of the source; each constructor carries exactly the values the
corresponding string interpolates. -/
inductive TradeMessage where
  | insufficientFunds (needed owned : ℚ)
  | noHolding
  | insufficientShares (ownedShares requestedShares : ℚ)
  | boughtOk (shares : ℚ) (movieTitle : String) (totalCost : ℚ)
  | soldOk (shares totalRevenue : ℚ)
deriving DecidableEq

/-- Return shape of buyStock and sellStock. -/
structure TradeResult where
  success : Bool
  message : TradeMessage
  portfolio : Option Portfolio
deriving DecidableEq

/-- Reduce over holdings summing totalValue, as both recalculation sites do. -/
def sumTotalValue (holdings : List Holding) : ℚ :=
  holdings.foldl (fun sum holding => sum + holding.totalValue) 0

/-- Reduce over holdings summing averagePrice times shares, as both
recalculation sites do. -/
def sumInvested (holdings : List Holding) : ℚ :=
  holdings.foldl (fun sum holding => sum + holding.averagePrice * holding.shares) 0

/-- Model of findIndex followed by indexing: the index of the first holding
for the movie together with that holding, or none when findIndex yields -1. -/
def findHolding (holdings : List Holding) (movieId : ℕ) : Option (ℕ × Holding) :=
  match holdings.findIdx? (fun h => h.movieId == movieId) with
  | none => none
  | some i => (holdings[i]?).map (fun h => (i, h))

/-- initializePortfolio from portfolioService.ts; the timestamp is a parameter. -/
def initializePortfolio (now : String) : Portfolio :=
  { cash := INITIAL_CASH
    totalValue := INITIAL_CASH
    totalInvested := 0
    totalProfitLoss := 0
    totalProfitLossPercent := 0
    holdings := []
    transactions := []
    createdAt := now
    lastUpdated := now }

/-- updatePortfolioPrices from portfolioService.ts. Quotes are fetched per
holding through calculateMoviePriceById (which never throws: its catch
block returns fallback data), then every holding and the aggregate fields
are recomputed and the result is persisted. -/
def updatePortfolioPrices (env : PriceEnv) (fetch : ℕ → Option MovieDetails)
    (portfolio : Portfolio) : Portfolio :=
  let currentPrices := portfolio.holdings.map
    (fun h => calculateMoviePriceById env fetch h.movieId)
  let updatedHoldings := portfolio.holdings.map (fun holding =>
    let newPrice :=
      match currentPrices.find? (fun q => q.movieId == holding.movieId) with
      | some q => q.currentPrice
      | none => holding.currentPrice
    { holding with
      currentPrice := newPrice
      totalValue := holding.shares * newPrice
      profitLoss := (newPrice - holding.averagePrice) * holding.shares
      profitLossPercent :=
        if holding.averagePrice > 0 then
          (newPrice - holding.averagePrice) / holding.averagePrice * 100
        else 0 })
  let totalHoldingsValue := sumTotalValue updatedHoldings
  let totalValue := portfolio.cash + totalHoldingsValue
  let totalProfitLoss := totalValue - INITIAL_CASH
  { portfolio with
    holdings := updatedHoldings
    totalValue := totalValue
    totalInvested := sumInvested updatedHoldings
    totalProfitLoss := totalProfitLoss
    totalProfitLossPercent := totalProfitLoss / INITIAL_CASH * 100
    lastUpdated := env.now }

/-- buyStock from portfolioService.ts, acting on the portfolio snapshot the
surrounding getPortfolio call produced; txId stands for the generated
transaction identifier and now for new Date().toISOString(). -/
def buyStock (portfolio : Portfolio) (movieId : ℕ) (movieTitle posterPath : String)
    (shares price : ℚ) (txId now : String) : TradeResult :=
  let totalCost := shares * price
  if portfolio.cash < totalCost then
    { success := false
      message := .insufficientFunds totalCost portfolio.cash
      portfolio := none }
  else
    let updatedHoldings :=
      match findHolding portfolio.holdings movieId with
      | some (i, existingHolding) =>
        let newTotalShares := existingHolding.shares + shares
        let newTotalCost := existingHolding.averagePrice * existingHolding.shares + totalCost
        let newAveragePrice := newTotalCost / newTotalShares
        portfolio.holdings.set i
          { existingHolding with
            shares := newTotalShares
            averagePrice := newAveragePrice
            currentPrice := price
            totalValue := newTotalShares * price
            profitLoss := (price - newAveragePrice) * newTotalShares
            profitLossPercent := (price - newAveragePrice) / newAveragePrice * 100 }
      | none =>
        portfolio.holdings ++
          [{ movieId := movieId
             movieTitle := movieTitle
             posterPath := posterPath
             shares := shares
             averagePrice := price
             currentPrice := price
             totalValue := shares * price
             profitLoss := 0
             profitLossPercent := 0 }]
    let txn : Transaction :=
      { id := txId
        movieId := movieId
        movieTitle := movieTitle
        type := .buy
        shares := shares
        price := price
        totalAmount := totalCost
        timestamp := now }
    let newCash := portfolio.cash - totalCost
    let totalValue := newCash + sumTotalValue updatedHoldings
    let totalProfitLoss := totalValue - INITIAL_CASH
    { success := true
      message := .boughtOk shares movieTitle totalCost
      portfolio := some
        { cash := newCash
          totalValue := totalValue
          totalInvested := sumInvested updatedHoldings
          totalProfitLoss := totalProfitLoss
          totalProfitLossPercent := totalProfitLoss / INITIAL_CASH * 100
          holdings := updatedHoldings
          transactions := portfolio.transactions ++ [txn]
          createdAt := portfolio.createdAt
          lastUpdated := now } }

/-- sellStock from portfolioService.ts, acting on the portfolio snapshot the
surrounding getPortfolio call produced. -/
def sellStock (portfolio : Portfolio) (movieId : ℕ) (shares price : ℚ)
    (txId now : String) : TradeResult :=
  match findHolding portfolio.holdings movieId with
  | none =>
    { success := false, message := .noHolding, portfolio := none }
  | some (i, holding) =>
    if holding.shares < shares then
      { success := false
        message := .insufficientShares holding.shares shares
        portfolio := none }
    else
      let totalRevenue := shares * price
      let remainingShares := holding.shares - shares
      let txn : Transaction :=
        { id := txId
          movieId := movieId
          movieTitle := holding.movieTitle
          type := .sell
          shares := shares
          price := price
          totalAmount := totalRevenue
          timestamp := now }
      let updatedHoldings :=
        if remainingShares = 0 then
          portfolio.holdings.eraseIdx i
        else
          portfolio.holdings.set i
            { holding with
              shares := remainingShares
              totalValue := remainingShares * price
              profitLoss := (price - holding.averagePrice) * remainingShares
              profitLossPercent := (price - holding.averagePrice) / holding.averagePrice * 100 }
      let newCash := portfolio.cash + totalRevenue
      let totalValue := newCash + sumTotalValue updatedHoldings
      let totalProfitLoss := totalValue - INITIAL_CASH
      { success := true
        message := .soldOk shares totalRevenue
        portfolio := some
          { cash := newCash
            totalValue := totalValue
            totalInvested := sumInvested updatedHoldings
            totalProfitLoss := totalProfitLoss
            totalProfitLossPercent := totalProfitLoss / INITIAL_CASH * 100
            holdings := updatedHoldings
            transactions := portfolio.transactions ++ [txn]
            createdAt := portfolio.createdAt
            lastUpdated := now } }

/-- Persistence effect of a trade call: AsyncStorage.setItem runs only on
the success path, so on failure the stored record is the input snapshot. -/
def persistedAfter (portfolio : Portfolio) (result : TradeResult) : Portfolio :=
  result.portfolio.getD portfolio

/-- PortfolioStats record from portfolioService.ts. The source field
riskScore holds Math.sqrt of the population variance of the per-holding
returns; a square root is in general irrational, so the model stores that
variance itself (the square of riskScore) in riskScoreSq. No claim
concerns the risk score. -/
structure PortfolioStats where
  bestPerformer : Option Holding
  worstPerformer : Option Holding
  totalTransactions : ℕ
  winRate : ℚ
  averageReturn : ℚ
  riskScoreSq : ℚ
deriving DecidableEq

/-- Insertion step of a stable descending sort on profitLossPercent. An
element moves left past exactly those entries with strictly smaller
profitLossPercent, so entries comparing equal keep their relative order:
this is the unique stable result mandated for Array.prototype.sort with
the comparator (a, b) => b.profitLossPercent - a.profitLossPercent. -/
def insertByPLDesc (x : Holding) : List Holding → List Holding
  | [] => [x]
  | y :: ys =>
    if y.profitLossPercent ≤ x.profitLossPercent then x :: y :: ys
    else y :: insertByPLDesc x ys

/-- Stable descending sort on profitLossPercent, modelling the
[...holdings].sort((a, b) => b.profitLossPercent - a.profitLossPercent)
call of getPortfolioStats. -/
def sortByPLDesc : List Holding → List Holding
  | [] => []
  | x :: l => insertByPLDesc x (sortByPLDesc l)

/-- getPortfolioStats from portfolioService.ts, acting on the loaded
portfolio snapshot. bestPerformer is sorted[0] and worstPerformer is
sorted[sorted.length - 1] of the descending sort. -/
def getPortfolioStats (portfolio : Portfolio) : PortfolioStats :=
  if portfolio.holdings.length = 0 then
    { bestPerformer := none
      worstPerformer := none
      totalTransactions := portfolio.transactions.length
      winRate := 0
      averageReturn := 0
      riskScoreSq := 0 }
  else
    let sortedByPerformance := sortByPLDesc portfolio.holdings
    let holdingCount : ℚ := portfolio.holdings.length
    let profitableHoldings : ℚ :=
      (portfolio.holdings.filter (fun h => h.profitLoss > 0)).length
    let sumReturns := portfolio.holdings.foldl (fun s h => s + h.profitLossPercent) 0
    let mean := sumReturns / holdingCount
    let variance :=
      (portfolio.holdings.foldl (fun s h => s + (h.profitLossPercent - mean) ^ 2) 0) /
        holdingCount
    { bestPerformer := sortedByPerformance.head?
      worstPerformer := sortedByPerformance.getLast?
      totalTransactions := portfolio.transactions.length
      winRate := profitableHoldings / holdingCount * 100
      averageReturn := sumReturns / holdingCount
      riskScoreSq := variance }

/-- Aggregate-field invariant of the spec: totalValue, totalInvested,
totalProfitLoss and totalProfitLossPercent agree with the cash balance
and the holdings list. -/
def portfolioInvariant (q : Portfolio) : Prop :=
  q.totalValue = q.cash + sumTotalValue q.holdings ∧
  q.totalInvested = sumInvested q.holdings ∧
  q.totalProfitLoss = q.totalValue - INITIAL_CASH ∧
  q.totalProfitLossPercent = q.totalProfitLoss / INITIAL_CASH * 100

/-- Per-holding consistency equation of the spec: totalValue equals
shares times currentPrice. -/
def holdingValueEq (h : Holding) : Prop :=
  h.totalValue = h.shares * h.currentPrice

instance (q : Portfolio) : Decidable (portfolioInvariant q) := by
  unfold portfolioInvariant; infer_instance

instance (h : Holding) : Decidable (holdingValueEq h) := by
  unfold holdingValueEq; infer_instance

/-- Trade intents, for stating properties of sequences of ledger calls. -/
inductive TradeOp where
  | buy (movieId : ℕ) (movieTitle posterPath : String) (shares price : ℚ) (txId now : String)
  | sell (movieId : ℕ) (shares price : ℚ) (txId now : String)

/-- Share count an intent requests. -/
def TradeOp.sharesReq : TradeOp → ℚ
  | .buy _ _ _ s _ _ _ => s
  | .sell _ s _ _ _ => s

/-- Effect of one trade intent on the persisted portfolio. -/
def applyOp (p : Portfolio) : TradeOp → Portfolio
  | .buy movieId t pp s pr tx now => persistedAfter p (buyStock p movieId t pp s pr tx now)
  | .sell movieId s pr tx now => persistedAfter p (sellStock p movieId s pr tx now)

/-- Effect of a sequence of trade intents on the persisted portfolio. -/
def applyOps (p : Portfolio) (ops : List TradeOp) : Portfolio :=
  ops.foldl applyOp p

/-- Specification-side reading of the bestPerformer tie rule: the
first-encountered holding attaining the maximum profitLossPercent. A
later candidate replaces the current one only when strictly greater. -/
def firstMaxByPL : List Holding → Option Holding
  | [] => none
  | x :: l =>
    some (match firstMaxByPL l with
      | none => x
      | some m => if m.profitLossPercent ≤ x.profitLossPercent then x else m)

/-- Last-encountered holding attaining the minimum profitLossPercent: a
later candidate replaces the current one whenever less or equal. -/
def lastMinByPL : List Holding → Option Holding
  | [] => none
  | x :: l =>
    some (match lastMinByPL l with
      | none => x
      | some m => if m.profitLossPercent ≤ x.profitLossPercent then m else x)

/-- Specification-side reading of the worstPerformer tie rule as the claim
states it: the first-encountered holding attaining the minimum
profitLossPercent. A later candidate replaces the current one only when
strictly smaller. -/
def firstMinByPL : List Holding → Option Holding
  | [] => none
  | x :: l =>
    some (match firstMinByPL l with
      | none => x
      | some m => if m.profitLossPercent < x.profitLossPercent then m else x)

/-- Specification-side trend multiplier exactly as the claim words it:
clamp(0.8 + 0.2 times the popularity factor + 0.1 times the rating factor
+ recencyBonus, 0.8, 1.2) with recencyBonus 0.2, 0.1, 0.05 or 0 by
release-age bucket. -/
def claimedTrendMultiplier (movie : Movie) (daysSinceRelease : ℚ) : ℚ :=
  let popularityFactor := min 1 (movie.popularity / 1000)
  let ratingFactor := movie.vote_average / 10
  let recencyBonus : ℚ :=
    if daysSinceRelease < 30 then 0.2
    else if daysSinceRelease < 90 then 0.1
    else if daysSinceRelease < 365 then 0.05
    else 0
  max 0.8 (min 1.2 (0.8 + 0.2 * popularityFactor + 0.1 * ratingFactor + recencyBonus))

/-! Helper lemmas about findHolding. -/

theorem findHolding_getElem {l : List Holding} {mid i : ℕ} {ex : Holding}
    (h : findHolding l mid = some (i, ex)) : l[i]? = some ex := by
  unfold findHolding at h
  cases hf : l.findIdx? (fun x => x.movieId == mid) with
  | none => rw [hf] at h; exact absurd h (by simp)
  | some j =>
    rw [hf] at h
    obtain ⟨a, ha, hae⟩ := Option.map_eq_some'.mp h
    cases hae
    exact ha

theorem findHolding_lt {l : List Holding} {mid i : ℕ} {ex : Holding}
    (h : findHolding l mid = some (i, ex)) : i < l.length :=
  (List.getElem?_eq_some_iff.mp (findHolding_getElem h)).1

theorem findHolding_mem {l : List Holding} {mid i : ℕ} {ex : Holding}
    (h : findHolding l mid = some (i, ex)) : ex ∈ l :=
  List.getElem?_mem (findHolding_getElem h)

/-- C1: after every mutating portfolio operation (buyStock, sellStock,
updatePortfolioPrices), the returned portfolio satisfies
totalValue = cash + the sum over holdings of totalValue,
totalInvested = the sum of averagePrice times shares,
totalProfitLoss = totalValue - INITIAL_CASH, and
totalProfitLossPercent = totalProfitLoss / INITIAL_CASH times 100. -/
theorem portfolio_aggregates_consistent_after_mutations :
    (∀ (env : PriceEnv) (fetch : ℕ → Option MovieDetails) (p : Portfolio),
      portfolioInvariant (updatePortfolioPrices env fetch p)) ∧
    (∀ (p : Portfolio) (movieId : ℕ) (movieTitle posterPath : String)
        (shares price : ℚ) (txId now : String),
      (buyStock p movieId movieTitle posterPath shares price txId now).success = true →
      portfolioInvariant
        (persistedAfter p (buyStock p movieId movieTitle posterPath shares price txId now))) ∧
    (∀ (p : Portfolio) (movieId : ℕ) (shares price : ℚ) (txId now : String),
      (sellStock p movieId shares price txId now).success = true →
      portfolioInvariant (persistedAfter p (sellStock p movieId shares price txId now))) := by
  refine ⟨fun env fetch p => ⟨rfl, rfl, rfl, rfl⟩, ?_, ?_⟩
  · intro p movieId movieTitle posterPath shares price txId now hs
    unfold buyStock at hs ⊢
    by_cases hc : p.cash < shares * price
    · simp only [hc, if_true] at hs
      exact Bool.noConfusion hs
    · simp only [hc, if_false] at hs ⊢
      exact ⟨rfl, rfl, rfl, rfl⟩
  · intro p movieId shares price txId now hs
    unfold sellStock at hs ⊢
    cases hf : findHolding p.holdings movieId with
    | none => rw [hf] at hs; simp at hs
    | some iex =>
      obtain ⟨i, ex⟩ := iex
      rw [hf] at hs
      by_cases hlt : ex.shares < shares
      · simp only [hlt, if_true] at hs
        exact Bool.noConfusion hs
      · simp only [hlt, if_false] at hs ⊢
        exact ⟨rfl, rfl, rfl, rfl⟩

unseal Rat.mul Rat.add Rat.sub Rat.inv Rat.ofScientific in
/-- Witness for C1 at a concrete buy from the initial portfolio. -/
theorem portfolio_aggregates_consistent_witness :
    portfolioInvariant (persistedAfter (initializePortfolio "t0")
      (buyStock (initializePortfolio "t0") 1 "Test Movie" "/poster.jpg" 10 50 "tx1" "t1")) :=
  portfolio_aggregates_consistent_after_mutations.2.1 (initializePortfolio "t0")
    1 "Test Movie" "/poster.jpg" 10 50 "tx1" "t1" (by decide)

/-- C2: buying into an existing holding sets averagePrice to the
weighted-average cost basis (oldAveragePrice times oldShares plus shares
times price) divided by (oldShares plus shares) and the share count to
oldShares plus shares; a sell that leaves a nonzero remainder keeps
averagePrice unchanged and recomputes profitLoss against that unchanged
averagePrice. -/
theorem buy_weighted_average_and_sell_keeps_basis :
    (∀ (p : Portfolio) (movieId : ℕ) (movieTitle posterPath : String)
        (shares price : ℚ) (txId now : String) (i : ℕ) (ex : Holding),
      findHolding p.holdings movieId = some (i, ex) →
      ¬ p.cash < shares * price →
      ∃ hNew,
        (persistedAfter p
          (buyStock p movieId movieTitle posterPath shares price txId now)).holdings[i]? =
            some hNew ∧
        hNew.shares = ex.shares + shares ∧
        hNew.averagePrice = (ex.averagePrice * ex.shares + shares * price) / (ex.shares + shares)) ∧
    (∀ (p : Portfolio) (movieId : ℕ) (shares price : ℚ) (txId now : String) (i : ℕ) (ex : Holding),
      findHolding p.holdings movieId = some (i, ex) →
      ¬ ex.shares < shares →
      ex.shares - shares ≠ 0 →
      ∃ hNew,
        (persistedAfter p (sellStock p movieId shares price txId now)).holdings[i]? = some hNew ∧
        hNew.averagePrice = ex.averagePrice ∧
        hNew.shares = ex.shares - shares ∧
        hNew.profitLoss = (price - ex.averagePrice) * (ex.shares - shares)) := by
  constructor
  · intro p movieId movieTitle posterPath shares price txId now i ex hf hc
    unfold buyStock persistedAfter
    simp only [hc, if_false, hf, Option.getD_some]
    exact ⟨_, List.getElem?_set_eq_of_lt _ (findHolding_lt hf), rfl, rfl⟩
  · intro p movieId shares price txId now i ex hf hlt hr
    unfold sellStock persistedAfter
    rw [hf]
    simp only [hlt, if_false, hr, Option.getD_some]
    exact ⟨_, List.getElem?_set_eq_of_lt _ (findHolding_lt hf), rfl, rfl, rfl⟩

/-- Fixture holding: 10 shares bought at 50. -/
def holdingTen : Holding :=
  { movieId := 1
    movieTitle := "T"
    posterPath := "P"
    shares := 10
    averagePrice := 50
    currentPrice := 50
    totalValue := 500
    profitLoss := 0
    profitLossPercent := 0 }

/-- Fixture portfolio holding holdingTen. -/
def portfolioTen : Portfolio :=
  { cash := 99500
    totalValue := 100000
    totalInvested := 500
    totalProfitLoss := 0
    totalProfitLossPercent := 0
    holdings := [holdingTen]
    transactions := []
    createdAt := "t0"
    lastUpdated := "t0" }

/-- Fixture holding: 20 shares bought at 50. -/
def holdingTwenty : Holding :=
  { movieId := 1
    movieTitle := "T"
    posterPath := "P"
    shares := 20
    averagePrice := 50
    currentPrice := 50
    totalValue := 1000
    profitLoss := 0
    profitLossPercent := 0 }

/-- Fixture portfolio holding holdingTwenty. -/
def portfolioTwenty : Portfolio :=
  { cash := 99000
    totalValue := 100000
    totalInvested := 1000
    totalProfitLoss := 0
    totalProfitLossPercent := 0
    holdings := [holdingTwenty]
    transactions := []
    createdAt := "t0"
    lastUpdated := "t0" }

unseal Rat.mul Rat.add Rat.sub Rat.inv Rat.ofScientific in
/-- Witness for C2: buy 5 at 60 into a holding of 10 at 50, and sell 10 at
55 out of a holding of 20 at 50. -/
theorem buy_weighted_average_and_sell_keeps_basis_witness :
    (∃ hNew,
      (persistedAfter portfolioTen
        (buyStock portfolioTen 1 "T" "P" 5 60 "tx" "t1")).holdings[0]? = some hNew ∧
      hNew.shares = 10 + 5 ∧
      hNew.averagePrice = (50 * 10 + 5 * 60) / (10 + 5)) ∧
    (∃ hNew,
      (persistedAfter portfolioTwenty
        (sellStock portfolioTwenty 1 10 55 "tx" "t1")).holdings[0]? = some hNew ∧
      hNew.averagePrice = 50 ∧
      hNew.shares = 20 - 10 ∧
      hNew.profitLoss = (55 - 50) * (20 - 10)) := by
  constructor
  · obtain ⟨hNew, h1, h2, h3⟩ :=
      buy_weighted_average_and_sell_keeps_basis.1 portfolioTen 1 "T" "P" 5 60 "tx" "t1" 0
        holdingTen (by decide) (by decide)
    refine ⟨hNew, h1, ?_, ?_⟩
    · rw [h2]; decide
    · rw [h3]; decide
  · obtain ⟨hNew, h1, h2, h3, h4⟩ :=
      buy_weighted_average_and_sell_keeps_basis.2 portfolioTwenty 1 10 55 "tx" "t1" 0
        holdingTwenty (by decide) (by decide) (by decide)
    refine ⟨hNew, h1, ?_, ?_, ?_⟩
    · rw [h2]; decide
    · rw [h3]; decide
    · rw [h4]; decide

/-- C3: buyStock fails exactly when cash < shares times price, sellStock
fails exactly when no holding exists or the holding has fewer shares than
requested (the message then carrying the owned share count), and every
failure leaves the persisted portfolio unchanged with no transaction
appended. -/
theorem trade_failures_exact_guards_no_mutation :
    (∀ (p : Portfolio) (movieId : ℕ) (movieTitle posterPath : String)
        (shares price : ℚ) (txId now : String),
      ((buyStock p movieId movieTitle posterPath shares price txId now).success = false ↔
        p.cash < shares * price) ∧
      ((buyStock p movieId movieTitle posterPath shares price txId now).success = false →
        (buyStock p movieId movieTitle posterPath shares price txId now).portfolio = none ∧
        (buyStock p movieId movieTitle posterPath shares price txId now).message =
          .insufficientFunds (shares * price) p.cash ∧
        persistedAfter p (buyStock p movieId movieTitle posterPath shares price txId now) = p)) ∧
    (∀ (p : Portfolio) (movieId : ℕ) (shares price : ℚ) (txId now : String),
      ((sellStock p movieId shares price txId now).success = false ↔
        findHolding p.holdings movieId = none ∨
          ∃ i ex, findHolding p.holdings movieId = some (i, ex) ∧ ex.shares < shares) ∧
      ((sellStock p movieId shares price txId now).success = false →
        (sellStock p movieId shares price txId now).portfolio = none ∧
        persistedAfter p (sellStock p movieId shares price txId now) = p) ∧
      (∀ i ex, findHolding p.holdings movieId = some (i, ex) → ex.shares < shares →
        (sellStock p movieId shares price txId now).message =
          .insufficientShares ex.shares shares)) := by
  constructor
  · intro p movieId movieTitle posterPath shares price txId now
    by_cases hc : p.cash < shares * price
    · refine ⟨by simp [buyStock, hc], fun _ => ?_⟩
      simp [buyStock, hc, persistedAfter]
    · refine ⟨by simp [buyStock, hc], fun hfalse => absurd hfalse (by simp [buyStock, hc])⟩
  · intro p movieId shares price txId now
    cases hf : findHolding p.holdings movieId with
    | none =>
      refine ⟨by simp [sellStock, hf], fun _ => by simp [sellStock, hf, persistedAfter], ?_⟩
      intro i ex hfx
      exact absurd hfx (by simp)
    | some iex =>
      obtain ⟨i, ex⟩ := iex
      by_cases hlt : ex.shares < shares
      · refine ⟨?_, fun _ => by simp [sellStock, hf, hlt, persistedAfter], ?_⟩
        · simp only [sellStock, hf, hlt, if_true]
          simp only [Option.some.injEq, Prod.mk.injEq, true_iff, reduceCtorEq, false_or]
          exact ⟨i, ex, ⟨rfl, rfl⟩, hlt⟩
        · intro j ey hfy hy
          obtain ⟨rfl, rfl⟩ : i = j ∧ ex = ey := by
            simpa [Prod.ext_iff] using hfy
          simp [sellStock, hf, hlt]
      · refine ⟨?_, fun hfalse => absurd hfalse ?_, ?_⟩
        · simp only [sellStock, hf, hlt, if_false]
          simp only [Bool.true_eq_false, false_iff, not_or]
          refine ⟨by simp, ?_⟩
          rintro ⟨j, ey, hfy, hy⟩
          obtain ⟨rfl, rfl⟩ : i = j ∧ ex = ey := by
            simpa [Prod.ext_iff] using hfy
          exact hlt hy
        · simp [sellStock, hf, hlt]
        · intro j ey hfy hy
          obtain ⟨rfl, rfl⟩ : i = j ∧ ex = ey := by
            simpa [Prod.ext_iff] using hfy
          exact absurd hy hlt

unseal Rat.mul Rat.add Rat.sub Rat.inv Rat.ofScientific in
/-- Witness for C3: an oversized buy against the initial portfolio fails
and leaves the persisted portfolio untouched. -/
theorem trade_failures_exact_guards_witness :
    (buyStock (initializePortfolio "t0") 1 "T" "P" 3000 50 "tx" "t1").success = false ∧
    (buyStock (initializePortfolio "t0") 1 "T" "P" 3000 50 "tx" "t1").portfolio = none ∧
    persistedAfter (initializePortfolio "t0")
      (buyStock (initializePortfolio "t0") 1 "T" "P" 3000 50 "tx" "t1") =
        initializePortfolio "t0" := by
  have h := trade_failures_exact_guards_no_mutation.1 (initializePortfolio "t0")
    1 "T" "P" 3000 50 "tx" "t1"
  have hfail : (buyStock (initializePortfolio "t0") 1 "T" "P" 3000 50 "tx" "t1").success = false :=
    h.1.mpr (by decide)
  exact ⟨hfail, (h.2 hfail).1, (h.2 hfail).2.2⟩

/-- C4: for every MovieAttributes input (and every random value and clock
reading), the derived currentPrice lies between MIN_PRICE and MAX_PRICE
inclusive; and from every MoviePriceData, even one out of bounds, the
currentPrice after any positive number of simulatePriceUpdate steps lies
between MIN_PRICE and MAX_PRICE inclusive. -/
theorem prices_always_within_bounds :
    (∀ (env : PriceEnv) (fetch : ℕ → Option MovieDetails) (movie : Movie),
      MIN_PRICE ≤ (calculateMoviePrice env fetch movie).currentPrice ∧
      (calculateMoviePrice env fetch movie).currentPrice ≤ MAX_PRICE) ∧
    (∀ (envs : ℕ → PriceEnv) (n : ℕ) (priceData : MoviePriceData),
      MIN_PRICE ≤ (simulateSteps envs (n + 1) priceData).currentPrice ∧
      (simulateSteps envs (n + 1) priceData).currentPrice ≤ MAX_PRICE) := by
  have hb : ∀ x : ℚ, MIN_PRICE ≤ max MIN_PRICE (min MAX_PRICE x) ∧
      max MIN_PRICE (min MAX_PRICE x) ≤ MAX_PRICE := by
    intro x
    refine ⟨le_max_left _ _, max_le ?_ (min_le_left _ _)⟩
    norm_num [MIN_PRICE, MAX_PRICE]
  constructor
  · intro env fetch movie
    unfold calculateMoviePrice
    cases fetch movie.id with
    | none =>
      constructor <;> norm_num [fallbackPrice, MIN_PRICE, MAX_PRICE, BASE_PRICE]
    | some d => exact hb _
  · intro envs n priceData
    show MIN_PRICE ≤
        (simulatePriceUpdate (envs n) (simulateSteps envs n priceData)).currentPrice ∧
      (simulatePriceUpdate (envs n) (simulateSteps envs n priceData)).currentPrice ≤ MAX_PRICE
    unfold simulatePriceUpdate
    exact hb _

/-- C10: neither trade validates shares > 0 or price > 0; a sell with a
negative share count passes the guards, reduces cash by shares times
price, and raises the share count, while a buy with a negative share
count passes the guard and raises cash. -/
theorem trades_accept_nonpositive_inputs :
    (∀ (p : Portfolio) (movieId : ℕ) (movieTitle posterPath : String)
        (shares price : ℚ) (txId now : String),
      shares < 0 → 0 < price → 0 ≤ p.cash →
      (buyStock p movieId movieTitle posterPath shares price txId now).success = true ∧
      (persistedAfter p (buyStock p movieId movieTitle posterPath shares price txId now)).cash =
        p.cash - shares * price ∧
      p.cash <
        (persistedAfter p (buyStock p movieId movieTitle posterPath shares price txId now)).cash) ∧
    (∀ (p : Portfolio) (movieId : ℕ) (shares price : ℚ) (txId now : String) (i : ℕ) (ex : Holding),
      findHolding p.holdings movieId = some (i, ex) →
      shares < 0 → 0 < price → 0 ≤ ex.shares →
      (sellStock p movieId shares price txId now).success = true ∧
      (persistedAfter p (sellStock p movieId shares price txId now)).cash =
        p.cash + shares * price ∧
      (persistedAfter p (sellStock p movieId shares price txId now)).cash < p.cash ∧
      ∃ hNew,
        (persistedAfter p (sellStock p movieId shares price txId now)).holdings[i]? = some hNew ∧
        hNew.shares = ex.shares - shares ∧ ex.shares < hNew.shares) := by
  constructor
  · intro p movieId movieTitle posterPath shares price txId now hneg hp hc0
    have hcost : shares * price < 0 := mul_neg_of_neg_of_pos hneg hp
    have hguard : ¬ p.cash < shares * price := not_lt.mpr (le_of_lt (lt_of_lt_of_le hcost hc0))
    unfold buyStock persistedAfter
    simp only [hguard, if_false, Option.getD_some]
    exact ⟨by trivial, by trivial, by linarith⟩
  · intro p movieId shares price txId now i ex hf hneg hp hs0
    have hguard : ¬ ex.shares < shares := not_lt.mpr (le_of_lt (lt_of_lt_of_le hneg hs0))
    have hrem : ex.shares - shares ≠ 0 := ne_of_gt (by linarith)
    have hrev : shares * price < 0 := mul_neg_of_neg_of_pos hneg hp
    unfold sellStock persistedAfter
    rw [hf]
    simp only [hguard, if_false, hrem, Option.getD_some]
    exact ⟨by trivial, by trivial, by linarith,
      ⟨_, List.getElem?_set_eq_of_lt _ (findHolding_lt hf), rfl, by simp; linarith⟩⟩

unseal Rat.mul Rat.add Rat.sub Rat.inv Rat.ofScientific in
/-- Witness for C10: selling minus five shares at price 20 from a holding
of twenty shares succeeds and reduces cash. -/
theorem trades_accept_nonpositive_inputs_witness :
    (sellStock portfolioTwenty 1 (-5) 20 "tx" "t1").success = true ∧
    (persistedAfter portfolioTwenty (sellStock portfolioTwenty 1 (-5) 20 "tx" "t1")).cash =
      portfolioTwenty.cash + (-5) * 20 ∧
    (persistedAfter portfolioTwenty (sellStock portfolioTwenty 1 (-5) 20 "tx" "t1")).cash <
      portfolioTwenty.cash := by
  have h := trades_accept_nonpositive_inputs.2 portfolioTwenty 1 (-5) 20 "tx" "t1" 0
    holdingTwenty (by decide) (by decide) (by decide) (by decide)
  exact ⟨h.1, h.2.1, h.2.2.1⟩

unseal Rat.mul Rat.add Rat.sub Rat.inv Rat.ofScientific in
/-- Counterexample for C5: selling 10 of 20 shares at price 55 (different
from the recorded currentPrice 50) leaves a holding whose totalValue
(550) is not shares times currentPrice (10 times 50). -/
theorem holding_value_breaks_on_partial_sell :
    ¬ (∀ h ∈ (persistedAfter portfolioTwenty
        (sellStock portfolioTwenty 1 10 55 "tx" "t1")).holdings, holdingValueEq h) := by
  decide

/-- C5 as amended: totalValue = shares times currentPrice holds for every
holding after updatePortfolioPrices, and after buyStock provided it held
before; but a partial sell sets the sold holding totalValue to
remainingShares times the sell price while leaving currentPrice at its
previous value, so that holding satisfies the equation only when the sell
price equals its recorded currentPrice. -/
theorem holding_value_eq_after_operations :
    (∀ (env : PriceEnv) (fetch : ℕ → Option MovieDetails) (p : Portfolio),
      ∀ h ∈ (updatePortfolioPrices env fetch p).holdings, holdingValueEq h) ∧
    (∀ (p : Portfolio) (movieId : ℕ) (movieTitle posterPath : String)
        (shares price : ℚ) (txId now : String),
      (∀ h ∈ p.holdings, holdingValueEq h) →
      ∀ h ∈ (persistedAfter p
        (buyStock p movieId movieTitle posterPath shares price txId now)).holdings,
        holdingValueEq h) ∧
    (∀ (p : Portfolio) (movieId : ℕ) (shares price : ℚ) (txId now : String) (i : ℕ) (ex : Holding),
      findHolding p.holdings movieId = some (i, ex) →
      ¬ ex.shares < shares →
      ex.shares - shares ≠ 0 →
      ∃ hNew,
        (persistedAfter p (sellStock p movieId shares price txId now)).holdings[i]? = some hNew ∧
        hNew.totalValue = (ex.shares - shares) * price ∧
        hNew.currentPrice = ex.currentPrice) := by
  refine ⟨?_, ?_, ?_⟩
  · intro env fetch p h hmem
    unfold updatePortfolioPrices at hmem
    simp only [List.mem_map] at hmem
    obtain ⟨x, hx, rfl⟩ := hmem
    rfl
  · intro p movieId movieTitle posterPath shares price txId now hinv h hmem
    unfold buyStock persistedAfter at hmem
    by_cases hc : p.cash < shares * price
    · simp only [hc, if_true, Option.getD_none] at hmem
      exact hinv h hmem
    · simp only [hc, if_false, Option.getD_some] at hmem
      cases hfind : findHolding p.holdings movieId with
      | some iex =>
        obtain ⟨i, ex⟩ := iex
        rw [hfind] at hmem
        rcases List.mem_or_eq_of_mem_set hmem with hmem' | rfl
        · exact hinv h hmem'
        · rfl
      | none =>
        rw [hfind] at hmem
        rcases List.mem_append.mp hmem with hmem' | hmem'
        · exact hinv h hmem'
        · rw [List.mem_singleton] at hmem'
          subst hmem'
          rfl
  · intro p movieId shares price txId now i ex hf hlt hr
    unfold sellStock persistedAfter
    rw [hf]
    simp only [hlt, if_false, hr, Option.getD_some]
    exact ⟨_, List.getElem?_set_eq_of_lt _ (findHolding_lt hf), rfl, rfl⟩

unseal Rat.mul Rat.add Rat.sub Rat.inv Rat.ofScientific in
/-- Witness for C5 as amended: the partial-sell conjunct at the concrete
sell of 10 of 20 shares at price 55. -/
theorem holding_value_eq_after_operations_witness :
    ∃ hNew,
      (persistedAfter portfolioTwenty
        (sellStock portfolioTwenty 1 10 55 "tx" "t1")).holdings[0]? = some hNew ∧
      hNew.totalValue = (holdingTwenty.shares - 10) * 55 ∧
      hNew.currentPrice = holdingTwenty.currentPrice :=
  holding_value_eq_after_operations.2.2 portfolioTwenty 1 10 55 "tx" "t1" 0 holdingTwenty
    (by decide) (by decide) (by decide)

/-- Zero-share holding produced by a zero-share buy. -/
def zeroShareHolding : Holding :=
  { movieId := 1
    movieTitle := "T"
    posterPath := "P"
    shares := 0
    averagePrice := 10
    currentPrice := 10
    totalValue := 0
    profitLoss := 0
    profitLossPercent := 0 }

unseal Rat.mul Rat.add Rat.sub Rat.inv Rat.ofScientific in
/-- Counterexample for C6: a buy of zero shares succeeds (the guard
100000 < 0 fails) and installs a holding with share count zero, which
then persists in the portfolio. -/
theorem zero_share_holding_from_zero_buy :
    (buyStock (initializePortfolio "t0") 1 "T" "P" 0 10 "tx" "t1").success = true ∧
    (persistedAfter (initializePortfolio "t0")
      (buyStock (initializePortfolio "t0") 1 "T" "P" 0 10 "tx" "t1")).holdings =
        [zeroShareHolding] := by
  decide

/-- Positivity of share counts is preserved by a single trade whose
requested share count is positive. -/
theorem holdings_pos_applyOp {p : Portfolio} {op : TradeOp}
    (hp : ∀ h ∈ p.holdings, 0 < h.shares) (hop : 0 < op.sharesReq) :
    ∀ h ∈ (applyOp p op).holdings, 0 < h.shares := by
  cases op with
  | buy movieId movieTitle posterPath shares price txId now =>
    intro h hmem
    simp only [TradeOp.sharesReq] at hop
    simp only [applyOp] at hmem
    unfold buyStock persistedAfter at hmem
    by_cases hc : p.cash < shares * price
    · simp only [hc, if_true, Option.getD_none] at hmem
      exact hp h hmem
    · simp only [hc, if_false, Option.getD_some] at hmem
      cases hfind : findHolding p.holdings movieId with
      | some iex =>
        obtain ⟨i, ex⟩ := iex
        rw [hfind] at hmem
        rcases List.mem_or_eq_of_mem_set hmem with hmem' | rfl
        · exact hp h hmem'
        · exact add_pos (hp ex (findHolding_mem hfind)) hop
      | none =>
        rw [hfind] at hmem
        rcases List.mem_append.mp hmem with hmem' | hmem'
        · exact hp h hmem'
        · rw [List.mem_singleton] at hmem'
          subst hmem'
          exact hop
  | sell movieId shares price txId now =>
    intro h hmem
    simp only [TradeOp.sharesReq] at hop
    simp only [applyOp] at hmem
    unfold sellStock persistedAfter at hmem
    cases hfind : findHolding p.holdings movieId with
    | none =>
      rw [hfind] at hmem
      simp only [Option.getD_none] at hmem
      exact hp h hmem
    | some iex =>
      obtain ⟨i, ex⟩ := iex
      rw [hfind] at hmem
      by_cases hlt : ex.shares < shares
      · simp only [hlt, if_true, Option.getD_none] at hmem
        exact hp h hmem
      · simp only [hlt, if_false, Option.getD_some] at hmem
        by_cases hrem : ex.shares - shares = 0
        · simp only [hrem, if_true] at hmem
          exact hp h (List.mem_of_mem_eraseIdx hmem)
        · simp only [hrem, if_false] at hmem
          rcases List.mem_or_eq_of_mem_set hmem with hmem' | rfl
          · exact hp h hmem'
          · exact lt_of_le_of_ne (sub_nonneg.mpr (not_lt.mp hlt)) (Ne.symm hrem)

/-- Positivity of share counts is preserved along any sequence of trades
with positive requested share counts. -/
theorem holdings_pos_applyOps {ops : List TradeOp} :
    ∀ {p : Portfolio}, (∀ h ∈ p.holdings, 0 < h.shares) →
    (∀ op ∈ ops, 0 < op.sharesReq) →
    ∀ h ∈ (applyOps p ops).holdings, 0 < h.shares := by
  induction ops with
  | nil => intro p hp _; exact hp
  | cons op ops ih =>
    intro p hp hops
    have h1 := holdings_pos_applyOp hp (hops op (List.mem_cons_self op ops))
    exact ih h1 (fun o ho => hops o (List.mem_cons_of_mem _ ho))

/-- C6 as amended: along any sequence of buy and sell operations whose
requested share counts are strictly positive, every holding in the
portfolio keeps a strictly positive share count (a buy of zero or
negative shares can break this, as the counterexample shows); and a sell
of the entire share count of a holding removes that holding from the
holdings list entirely. -/
theorem positive_shares_invariant :
    (∀ (now0 : String) (ops : List TradeOp),
      (∀ op ∈ ops, 0 < op.sharesReq) →
      ∀ h ∈ (applyOps (initializePortfolio now0) ops).holdings, 0 < h.shares) ∧
    (∀ (p : Portfolio) (movieId : ℕ) (shares price : ℚ) (txId now : String) (i : ℕ) (ex : Holding),
      findHolding p.holdings movieId = some (i, ex) →
      ex.shares = shares →
      (persistedAfter p (sellStock p movieId shares price txId now)).holdings =
        p.holdings.eraseIdx i) := by
  constructor
  · intro now0 ops hops
    exact holdings_pos_applyOps (by intro h hmem; exact absurd hmem (List.not_mem_nil h)) hops
  · intro p movieId shares price txId now i ex hf hsh
    subst hsh
    unfold sellStock persistedAfter
    rw [hf]
    simp only [lt_self_iff_false, if_false, sub_self, if_true, Option.getD_some]

unseal Rat.mul Rat.add Rat.sub Rat.inv Rat.ofScientific in
/-- Witness for C6 as amended: a buy of 10 shares followed by a sell of 4
leaves only positive share counts. -/
theorem positive_shares_invariant_witness :
    (∀ op ∈ ([TradeOp.buy 1 "T" "P" 10 50 "tx1" "t1",
        TradeOp.sell 1 4 55 "tx2" "t2"] : List TradeOp), 0 < op.sharesReq) ∧
    (∀ h ∈ (applyOps (initializePortfolio "t0")
        [TradeOp.buy 1 "T" "P" 10 50 "tx1" "t1",
          TradeOp.sell 1 4 55 "tx2" "t2"]).holdings, 0 < h.shares) :=
  ⟨by decide, positive_shares_invariant.1 "t0" _ (by decide)⟩

/-- Fixed clock and random readings for concrete price evaluations. -/
def envFixed : PriceEnv :=
  { rand := 1/2
    hour := 10
    dayOfWeek := 1
    month := 0
    daysSince := fun _ => 1000
    now := "t1" }

/-- Fixture holding with a recorded (stale) currentPrice of 80. -/
def holdingStale : Holding :=
  { movieId := 7
    movieTitle := "M"
    posterPath := "P"
    shares := 2
    averagePrice := 40
    currentPrice := 80
    totalValue := 160
    profitLoss := 80
    profitLossPercent := 100 }

/-- Fixture portfolio holding holdingStale. -/
def portfolioStale : Portfolio :=
  { cash := 99840
    totalValue := 100000
    totalInvested := 80
    totalProfitLoss := 0
    totalProfitLossPercent := 0
    holdings := [holdingStale]
    transactions := []
    createdAt := "t0"
    lastUpdated := "t0" }

unseal Rat.mul Rat.add Rat.sub Rat.inv Rat.ofScientific in
/-- C7 at the failing input: when the quote fetch for the single holding
fails, updatePortfolioPrices does not retain the stale currentPrice 80;
the catch block inside calculateMoviePriceById returns fallback data
carrying the movieId, the find succeeds, and the holding takes the
fallback price BASE_PRICE = 50. -/
theorem refresh_failed_quote_gets_fallback_not_stale :
    ((updatePortfolioPrices envFixed (fun _ => none) portfolioStale).holdings.map
      (fun h => h.currentPrice)) = [BASE_PRICE] ∧
    holdingStale.currentPrice = 80 ∧
    (BASE_PRICE : ℚ) ≠ 80 := by
  decide

/-! Properties of the stable descending sort used by getPortfolioStats. -/

/-- Descending sortedness on profitLossPercent. -/
def SortedDesc (l : List Holding) : Prop :=
  l.Pairwise (fun a b => b.profitLossPercent ≤ a.profitLossPercent)

theorem insertByPLDesc_ne_nil (x : Holding) (s : List Holding) :
    insertByPLDesc x s ≠ [] := by
  cases s with
  | nil => simp [insertByPLDesc]
  | cons y ys =>
    unfold insertByPLDesc
    split <;> simp

theorem mem_insertByPLDesc {a x : Holding} {s : List Holding}
    (h : a ∈ insertByPLDesc x s) : a = x ∨ a ∈ s := by
  induction s with
  | nil =>
    simp [insertByPLDesc] at h
    exact Or.inl h
  | cons y ys ih =>
    unfold insertByPLDesc at h
    split at h
    · rcases List.mem_cons.mp h with rfl | h'
      · exact Or.inl rfl
      · exact Or.inr h'
    · rcases List.mem_cons.mp h with rfl | h'
      · exact Or.inr (List.mem_cons_self _ _)
      · rcases ih h' with h'' | h''
        · exact Or.inl h''
        · exact Or.inr (List.mem_cons_of_mem _ h'')

theorem sortedDesc_insertByPLDesc (x : Holding) {s : List Holding} (hs : SortedDesc s) :
    SortedDesc (insertByPLDesc x s) := by
  induction s with
  | nil => simp [insertByPLDesc, SortedDesc]
  | cons y ys ih =>
    obtain ⟨hy, hys⟩ := List.pairwise_cons.mp hs
    unfold insertByPLDesc
    by_cases hc : y.profitLossPercent ≤ x.profitLossPercent
    · rw [if_pos hc]
      refine List.Pairwise.cons ?_ (List.Pairwise.cons hy hys)
      intro b hb
      rcases List.mem_cons.mp hb with rfl | hb'
      · exact hc
      · exact le_trans (hy b hb') hc
    · rw [if_neg hc]
      refine List.Pairwise.cons ?_ (ih hys)
      intro b hb
      rcases mem_insertByPLDesc hb with rfl | hb'
      · exact le_of_lt (not_le.mp hc)
      · exact hy b hb'

theorem sortedDesc_sortByPLDesc (l : List Holding) : SortedDesc (sortByPLDesc l) := by
  induction l with
  | nil => simp [sortByPLDesc, SortedDesc]
  | cons x l ih => exact sortedDesc_insertByPLDesc x ih

theorem head?_insertByPLDesc (x : Holding) (s : List Holding) :
    (insertByPLDesc x s).head? =
      some (match s.head? with
        | none => x
        | some y => if y.profitLossPercent ≤ x.profitLossPercent then x else y) := by
  cases s with
  | nil => rfl
  | cons y ys =>
    by_cases hc : y.profitLossPercent ≤ x.profitLossPercent <;>
      simp [insertByPLDesc, hc]

theorem getLast?_insertByPLDesc (x : Holding) :
    ∀ {s : List Holding}, SortedDesc s →
      (insertByPLDesc x s).getLast? =
        some (match s.getLast? with
          | none => x
          | some z => if z.profitLossPercent ≤ x.profitLossPercent then z else x) := by
  intro s
  induction s with
  | nil => intro _; rfl
  | cons y ys ih =>
    intro hs
    obtain ⟨hy, hys⟩ := List.pairwise_cons.mp hs
    unfold insertByPLDesc
    by_cases hc : y.profitLossPercent ≤ x.profitLossPercent
    · rw [if_pos hc, List.getLast?_cons_cons]
      cases hz : (y :: ys).getLast? with
      | none => exact absurd hz (by simp)
      | some z =>
        have hzmem : z ∈ y :: ys := List.mem_of_mem_getLast? hz
        have hzx : z.profitLossPercent ≤ x.profitLossPercent := by
          rcases List.mem_cons.mp hzmem with rfl | hz'
          · exact hc
          · exact le_trans (hy z hz') hc
        simp [hzx]
    · rw [if_neg hc]
      cases ys with
      | nil => simp [insertByPLDesc, hc]
      | cons w ws =>
        cases hins : insertByPLDesc x (w :: ws) with
        | nil => exact absurd hins (insertByPLDesc_ne_nil _ _)
        | cons u us =>
          rw [List.getLast?_cons_cons, ← hins, ih hys, List.getLast?_cons_cons]

theorem head?_sortByPLDesc (l : List Holding) :
    (sortByPLDesc l).head? = firstMaxByPL l := by
  induction l with
  | nil => rfl
  | cons x l ih =>
    show (insertByPLDesc x (sortByPLDesc l)).head? = _
    rw [head?_insertByPLDesc, ih]
    rfl

theorem getLast?_sortByPLDesc (l : List Holding) :
    (sortByPLDesc l).getLast? = lastMinByPL l := by
  induction l with
  | nil => rfl
  | cons x l ih =>
    show (insertByPLDesc x (sortByPLDesc l)).getLast? = _
    rw [getLast?_insertByPLDesc x (sortedDesc_sortByPLDesc l), ih]
    rfl

theorem firstMaxByPL_eq_none_iff {l : List Holding} : firstMaxByPL l = none ↔ l = [] := by
  cases l <;> simp [firstMaxByPL]

theorem firstMaxByPL_mem_le {l : List Holding} {b : Holding} (h : firstMaxByPL l = some b) :
    b ∈ l ∧ ∀ x ∈ l, x.profitLossPercent ≤ b.profitLossPercent := by
  induction l generalizing b with
  | nil => exact absurd h (by simp [firstMaxByPL])
  | cons y l ih =>
    simp only [firstMaxByPL, Option.some.injEq] at h
    cases hf : firstMaxByPL l with
    | none =>
      simp only [hf] at h
      subst h
      have : l = [] := firstMaxByPL_eq_none_iff.mp hf
      subst this
      exact ⟨List.mem_singleton_self _, by
        intro x hx
        rw [List.mem_singleton] at hx
        subst hx
        exact le_refl _⟩
    | some m =>
      simp only [hf] at h
      obtain ⟨hm_mem, hm_le⟩ := ih hf
      by_cases hc : m.profitLossPercent ≤ y.profitLossPercent
      · rw [if_pos hc] at h
        subst h
        refine ⟨List.mem_cons_self _ _, ?_⟩
        intro x hx
        rcases List.mem_cons.mp hx with rfl | hx'
        · exact le_refl _
        · exact le_trans (hm_le x hx') hc
      · rw [if_neg hc] at h
        subst h
        refine ⟨List.mem_cons_of_mem _ hm_mem, ?_⟩
        intro x hx
        rcases List.mem_cons.mp hx with rfl | hx'
        · exact le_of_lt (not_le.mp hc)
        · exact hm_le x hx'

theorem lastMinByPL_eq_none_iff {l : List Holding} : lastMinByPL l = none ↔ l = [] := by
  cases l <;> simp [lastMinByPL]

theorem lastMinByPL_mem_le {l : List Holding} {w : Holding} (h : lastMinByPL l = some w) :
    w ∈ l ∧ ∀ x ∈ l, w.profitLossPercent ≤ x.profitLossPercent := by
  induction l generalizing w with
  | nil => exact absurd h (by simp [lastMinByPL])
  | cons y l ih =>
    simp only [lastMinByPL, Option.some.injEq] at h
    cases hf : lastMinByPL l with
    | none =>
      simp only [hf] at h
      subst h
      have : l = [] := lastMinByPL_eq_none_iff.mp hf
      subst this
      exact ⟨List.mem_singleton_self _, by
        intro x hx
        rw [List.mem_singleton] at hx
        subst hx
        exact le_refl _⟩
    | some m =>
      simp only [hf] at h
      obtain ⟨hm_mem, hm_le⟩ := ih hf
      by_cases hc : m.profitLossPercent ≤ y.profitLossPercent
      · rw [if_pos hc] at h
        subst h
        refine ⟨List.mem_cons_of_mem _ hm_mem, ?_⟩
        intro x hx
        rcases List.mem_cons.mp hx with rfl | hx'
        · exact hc
        · exact hm_le x hx'
      · rw [if_neg hc] at h
        subst h
        refine ⟨List.mem_cons_self _ _, ?_⟩
        intro x hx
        rcases List.mem_cons.mp hx with rfl | hx'
        · exact le_refl _
        · exact le_trans (le_of_lt (not_le.mp hc)) (hm_le x hx')

/-- Fixture holding for the tie counterexample, listed first. -/
def holdingTieA : Holding :=
  { movieId := 1
    movieTitle := "A"
    posterPath := "P"
    shares := 1
    averagePrice := 10
    currentPrice := 10
    totalValue := 10
    profitLoss := 0
    profitLossPercent := 0 }

/-- Fixture holding for the tie counterexample, listed second, with the
same profitLossPercent as holdingTieA. -/
def holdingTieB : Holding :=
  { holdingTieA with movieId := 2, movieTitle := "B" }

/-- Fixture portfolio whose two holdings tie on profitLossPercent. -/
def portfolioTie : Portfolio :=
  { cash := 99980
    totalValue := 100000
    totalInvested := 20
    totalProfitLoss := 0
    totalProfitLossPercent := 0
    holdings := [holdingTieA, holdingTieB]
    transactions := []
    createdAt := "t0"
    lastUpdated := "t0" }

unseal Rat.mul Rat.add Rat.sub Rat.inv Rat.ofScientific in
/-- Counterexample for C8: with two holdings tied on profitLossPercent,
worstPerformer is the second (last-encountered) holding, not the
first-encountered one the claim requires. -/
theorem worst_performer_tie_last_not_first :
    (getPortfolioStats portfolioTie).worstPerformer = some holdingTieB ∧
    firstMinByPL portfolioTie.holdings = some holdingTieA ∧
    holdingTieB ≠ holdingTieA := by
  decide

/-- C8 as amended: for every portfolio with at least one holding,
bestPerformer is the first-encountered holding attaining the maximum
profitLossPercent, while worstPerformer is the last-encountered holding
attaining the minimum profitLossPercent (the stable descending sort keeps
tied entries in encounter order, so its last element is the last of the
tied minima). -/
theorem stats_best_first_max_worst_last_min :
    ∀ p : Portfolio, p.holdings ≠ [] →
      (getPortfolioStats p).bestPerformer = firstMaxByPL p.holdings ∧
      (getPortfolioStats p).worstPerformer = lastMinByPL p.holdings ∧
      (∀ b, firstMaxByPL p.holdings = some b →
        b ∈ p.holdings ∧ ∀ x ∈ p.holdings, x.profitLossPercent ≤ b.profitLossPercent) ∧
      (∀ w, lastMinByPL p.holdings = some w →
        w ∈ p.holdings ∧ ∀ x ∈ p.holdings, w.profitLossPercent ≤ x.profitLossPercent) := by
  intro p hne
  have hlen : ¬ p.holdings.length = 0 := by simpa using hne
  refine ⟨?_, ?_, fun b hb => firstMaxByPL_mem_le hb, fun w hw => lastMinByPL_mem_le hw⟩
  · unfold getPortfolioStats
    rw [if_neg hlen]
    exact head?_sortByPLDesc _
  · unfold getPortfolioStats
    rw [if_neg hlen]
    exact getLast?_sortByPLDesc _

unseal Rat.mul Rat.add Rat.sub Rat.inv Rat.ofScientific in
/-- Witness for C8 as amended, at the two-holding tie portfolio. -/
theorem stats_best_first_max_worst_last_min_witness :
    (getPortfolioStats portfolioTie).bestPerformer = firstMaxByPL portfolioTie.holdings ∧
    (getPortfolioStats portfolioTie).worstPerformer = lastMinByPL portfolioTie.holdings ∧
    (∀ b, firstMaxByPL portfolioTie.holdings = some b →
      b ∈ portfolioTie.holdings ∧
        ∀ x ∈ portfolioTie.holdings, x.profitLossPercent ≤ b.profitLossPercent) ∧
    (∀ w, lastMinByPL portfolioTie.holdings = some w →
      w ∈ portfolioTie.holdings ∧
        ∀ x ∈ portfolioTie.holdings, w.profitLossPercent ≤ x.profitLossPercent) :=
  stats_best_first_max_worst_last_min portfolioTie (by decide)

/-- Fixture movie with zero popularity and rating. -/
def movieZero : Movie :=
  { id := 1
    title := "Z"
    release_date := "r"
    vote_average := 0
    popularity := 0
    genre_ids := []
    vote_count := 0 }

unseal Rat.mul Rat.add Rat.sub Rat.inv Rat.ofScientific in
/-- Counterexample for C9: for a ten-day-old release with zero popularity
and rating, the code yields 0.8 + 0.2 times 0.1 = 0.82, not the
clamp(0.8 + 0.2) = 1.0 the claimed recencyBonus of 0.2 would give. -/
theorem trend_multiplier_differs_from_claimed :
    calculateTrendMultiplier movieZero 10 = 0.82 ∧
    claimedTrendMultiplier movieZero 10 = 1 ∧
    calculateTrendMultiplier movieZero 10 ≠ claimedTrendMultiplier movieZero 10 := by
  decide

/-- C9 as amended: the trend multiplier is clamp(0.8 + 0.2 times the
popularity factor + 0.1 times the rating factor + recencyBonus, 0.8, 1.2)
where recencyBonus is 0.1 times the recency factor, that is 0.02 when the
release is under 30 days old, 0.01 under 90 days, 0.005 under 365 days,
and 0 otherwise. -/
theorem trend_multiplier_formula :
    ∀ (movie : Movie) (daysSinceRelease : ℚ),
      calculateTrendMultiplier movie daysSinceRelease =
        max 0.8 (min 1.2
          (0.8 + 0.2 * min 1 (movie.popularity / 1000) + 0.1 * (movie.vote_average / 10) +
            (if daysSinceRelease < 30 then 0.02
             else if daysSinceRelease < 90 then 0.01
             else if daysSinceRelease < 365 then 0.005
             else 0))) := by
  intro movie d
  unfold calculateTrendMultiplier calculateRecencyFactor
  have harg :
      (0.8 + min 1 (movie.popularity / 1000) * 0.2 + movie.vote_average / 10 * 0.1 +
        (if d < 30 then (0.2 : ℚ) else if d < 90 then 0.1 else if d < 365 then 0.05 else 0)
          * 0.1) =
      (0.8 + 0.2 * min 1 (movie.popularity / 1000) + 0.1 * (movie.vote_average / 10) +
        (if d < 30 then (0.02 : ℚ) else if d < 90 then 0.01 else if d < 365 then 0.005
          else 0)) := by
    split_ifs <;> ring_nf
  dsimp only
  rw [harg]

end MovieMood
